import Mathlib

/-!
Verification of the ilias-tests repository: a shallow embedding of the
page-model / form-synthesis / action-layer / glob-resolver / grading code,
with theorems settling the frozen claims about it.

Python-to-Lean conventions used throughout:
* Python `dict` becomes an association list `List (String × α)` in insertion
  order; `d[k] = v` is `pyDictSet` (replace in place if the key exists,
  append otherwise), `k in d` is `pyDictMem`, `d[k]` is `pyDictGet`.
* Python `set` of `ExtraFormData` (hash/eq by name only) becomes a list where
  `add` keeps the first element with a given name.
* Python `str.find` returning -1 is `pyFindStr : Option Nat`; slices with the
  -1 convention are spelled out at each use site.
* Fallible code returns `Except String α`; the message mirrors the Python
  `CrawlError` / `ValueError` text (Python `!r` quoting is dropped).
* Python floats only pass through the code unchanged or get compared, so they
  are modelled as `Rat`.
-/

deriving instance DecidableEq for Except

namespace IliasTests

/-- Python dict membership `k in d` on an insertion-ordered assoc list. -/
def pyDictMem (d : List (String × α)) (k : String) : Bool :=
  d.any (fun p => p.1 == k)

/-- Python dict assignment `d[k] = v`: replace in place if present, else append. -/
def pyDictSet (d : List (String × α)) (k : String) (v : α) : List (String × α) :=
  if pyDictMem d k then d.map (fun p => if p.1 == k then (k, v) else p) else d ++ [(k, v)]

/-- Python dict lookup `d[k]`: the value stored for `k` (first occurrence), if any. -/
def pyDictGet (d : List (String × α)) (k : String) : Option α :=
  (d.find? (fun p => p.1 == k)).map (·.2)

/-- Python `{**a, **b}` / `a.update(b)`: fold the right dict into the left one. -/
def pyDictMerge (a b : List (String × α)) : List (String × α) :=
  b.foldl (fun acc p => pyDictSet acc p.1 p.2) a

/-- Does the character list `hay` start with `pat`? -/
def listStartsWith : List Char → List Char → Bool
  | _, [] => true
  | [], _ :: _ => false
  | a :: as, b :: bs => a == b && listStartsWith as bs

/-- First index at or after `i` where `pat` occurs in `hay` (substring search). -/
def findSubAux : List Char → List Char → Nat → Option Nat
  | hay, pat, i =>
    if listStartsWith hay pat then some i
    else
      match hay with
      | [] => none
      | _ :: rest => findSubAux rest pat (i + 1)

/-- Python `s.find(sub)`, as `none` instead of -1 when absent. -/
def pyFindStr (s sub : String) : Option Nat :=
  findSubAux s.toList sub.toList 0

/-- Python `sub in s` substring containment. -/
def pyContains (s sub : String) : Bool :=
  (pyFindStr s sub).isSome

/-- Python `s.replace(pat, rep)` on character lists, scanning left to right
with non-overlapping matches; `fuel` bounds the recursion (the input length
suffices, every step consumes at least one character for nonempty `pat`).
Only nonempty patterns occur in this code base. -/
def replaceFuel : Nat → List Char → List Char → List Char → List Char
  | 0, cs, _, _ => cs
  | _ + 1, [], _, _ => []
  | fuel + 1, c :: cs, pat, rep =>
    if listStartsWith (c :: cs) pat ∧ pat ≠ [] then
      rep ++ replaceFuel fuel ((c :: cs).drop pat.length) pat rep
    else
      c :: replaceFuel fuel cs pat rep

/-- Python `s.replace(pat, rep)` for nonempty `pat`. -/
def pyReplace (s pat rep : String) : String :=
  String.mk (replaceFuel s.toList.length s.toList pat.toList rep.toList)

/-- Python `s.split(sep)` on character lists for nonempty `sep`; `fuel` bounds
the recursion as in `replaceFuel`. -/
def splitOnFuel : Nat → List Char → List Char → List Char → List (List Char)
  | 0, _, _, cur => [cur.reverse]
  | _ + 1, [], _, cur => [cur.reverse]
  | fuel + 1, c :: cs, sep, cur =>
    if listStartsWith (c :: cs) sep ∧ sep ≠ [] then
      cur.reverse :: splitOnFuel fuel ((c :: cs).drop sep.length) sep []
    else
      splitOnFuel fuel cs sep (c :: cur)

/-- Python `s.split(sep)` for nonempty `sep`. -/
def pySplitOn (s sep : String) : List String :=
  (splitOnFuel s.toList.length s.toList sep.toList []).map String.mk

/-- Python `s.strip()`: drop whitespace from both ends. -/
def pyTrim (s : String) : String :=
  String.mk (((s.toList.dropWhile Char.isWhitespace).reverse.dropWhile
    Char.isWhitespace).reverse)

/-- Python `s.startswith(pre)`. -/
def pyStartsWith (s pre : String) : Bool :=
  listStartsWith s.toList pre.toList

/-- Python `s.endswith(suf)`. -/
def pyEndsWith (s suf : String) : Bool :=
  listStartsWith s.toList.reverse suf.toList.reverse

/-- Python `s.lower()` for the ASCII names this code handles. -/
def pyToLower (s : String) : String :=
  String.mk (s.toList.map Char.toLower)

/-- Python `str.splitlines` for newline-only input: like splitting on `"\n"`
but an empty string gives no lines and a trailing newline adds no empty
line. -/
def pySplitlines (s : String) : List String :=
  if s = "" then []
  else if pyEndsWith s "\n" then (pySplitOn s "\n").dropLast
  else pySplitOn s "\n"

/-! ## C2 — the action layer's retry-once protocol (src/ilias-tests/ilias_action.py)

Each logical request in `IliasInteractor` follows the same skeleton:
run `do_request()`; on success return; otherwise `authenticate(auth_id)` and
run `do_request()` once more; if that also fails, raise a `CrawlError`.
The inner `do_request` is modelled by its two possible results
(`first`, `second : Option α`): `none` covers every rejection the source
treats as retryable (non-2xx status, not-logged-in page, failed
request/soup validation).  The `_iorepeat` decorator wrapped around three of
the functions is external PFERD code handling I/O *exceptions*, not this
rejection path, and is out of scope per the spec. -/

/-- Outcome of one logical request: the value or a fatal error, plus how many
`do_request` attempts and how many `authenticate` calls were made. -/
inductive ReqOutcome (α : Type) where
  | ok (value : α) (attempts : Nat) (auths : Nat)
  | fatal (message : String) (attempts : Nat) (auths : Nat)
deriving DecidableEq, Repr

/-- `IliasInteractor._get_soup`: attempt, authenticate, retry once, else die. -/
def get_soup_run (first second : Option α) (url : String) : ReqOutcome α :=
  match first with
  | some page => .ok page 1 0
  | none =>
    match second with
    | some page => .ok page 2 1
    | none => .fatal ("get_page failed even after authenticating on " ++ url) 2 1

/-- `IliasInteractor._post_authenticated`: same retry-once skeleton. -/
def post_authenticated_run (first second : Option α) : ReqOutcome α :=
  match first with
  | some page => .ok page 1 0
  | none =>
    match second with
    | some page => .ok page 2 1
    | none => .fatal "post_authenticated failed even after authenticating" 2 1

/-- `IliasInteractor._post_authenticated_json`: same retry-once skeleton. -/
def post_authenticated_json_run (first second : Option α) : ReqOutcome α :=
  match first with
  | some payload => .ok payload 1 0
  | none =>
    match second with
    | some payload => .ok payload 2 1
    | none => .fatal "post_authenticated_json failed even after authenticating" 2 1

/-- `IliasInteractor.download_file`: same retry-once skeleton. -/
def download_file_run (first second : Option α) (url : String) : ReqOutcome α :=
  match first with
  | some path => .ok path 1 0
  | none =>
    match second with
    | some path => .ok path 2 1
    | none => .fatal ("download_file failed even after authenticating on " ++ url) 2 1

/-- Attempts recorded in a `ReqOutcome`. -/
def ReqOutcome.attemptCount : ReqOutcome α → Nat
  | .ok _ n _ => n
  | .fatal _ n _ => n

/-- Authentications recorded in a `ReqOutcome`. -/
def ReqOutcome.authCount : ReqOutcome α → Nat
  | .ok _ _ n => n
  | .fatal _ _ n => n

/-- Is the outcome fatal? -/
def ReqOutcome.isFatal : ReqOutcome α → Bool
  | .ok _ _ _ => false
  | .fatal _ _ _ => true

/-- The behavior claim C2 makes of one logical request, relative to the
results of the (at most two) `do_request` invocations: at most two attempts,
at most one authentication, fatal exactly when both attempts fail, the single
retry happens only after authenticating, a first success returns immediately
with no authentication, and a second-attempt success returns after exactly
one authentication. -/
def retryOnceBehavior {α : Type} (first second : Option α) (r : ReqOutcome α) : Prop :=
  r.attemptCount ≤ 2
  ∧ r.authCount ≤ 1
  ∧ (r.isFatal = true ↔ (first = none ∧ second = none))
  ∧ (r.attemptCount = 2 → r.authCount = 1)
  ∧ (∀ a, first = some a → r = .ok a 1 0)
  ∧ (∀ a, first = none → second = some a → r = .ok a 2 1)

/-! ## C3 — `IliasInteractor.authenticate` and the generation counter -/

/-- The interactor's shared authentication state: the generation counter
(`_authentication_id`) and the request counter. -/
structure InteractorState where
  authentication_id : Nat
  request_count : Nat
deriving DecidableEq, Repr

/-- Observable side effects of `authenticate`, in order of occurrence. -/
inductive AuthEvent where
  | login
  | bumpGeneration
  | saveCookies
deriving DecidableEq, Repr

/-- `IliasInteractor._current_auth_id`: under the lock, bump the request count
and return the current generation. -/
def _current_auth_id (st : InteractorState) : Nat × InteractorState :=
  (st.authentication_id, { st with request_count := st.request_count + 1 })

/-- `IliasInteractor.authenticate(caller_auth_id)`: under the lock, skip when
the generation moved past the captured one; otherwise run the login flow,
increment the generation and save the cookies, in that order. -/
def authenticate (st : InteractorState) (caller_auth_id : Nat) :
    InteractorState × List AuthEvent :=
  if caller_auth_id ≠ st.authentication_id then
    (st, [])
  else
    ({ st with authentication_id := st.authentication_id + 1 },
     [.login, .bumpGeneration, .saveCookies])

/-! ## C5 — `add_test` call sequence (src/ilias_tests/automation.py) -/

/-- One call made by `add_test` on the interactor, in program order. -/
inductive InteractorCall where
  | createTest
  | selectTab (tab : String)
  | configureTest
  | configureTestScoring
  | addQuestion (title : String)
  | reorderQuestions
deriving DecidableEq, Repr

/-- The sequence of interactor calls issued by `automation.add_test` for a test
whose questions have the given titles: create, fetch settings, configure twice
(the source comments that ILIAS "needs this twice to actually fill out the
intro text"), configure scoring, open the questions tab, add each question in
order, reopen the questions tab, reorder. -/
def add_test_calls (question_titles : List String) : List InteractorCall :=
  [.createTest, .selectTab "SETTINGS", .configureTest, .configureTest,
   .configureTestScoring, .selectTab "QUESTIONS"]
  ++ question_titles.map .addQuestion
  ++ [.selectTab "QUESTIONS", .reorderQuestions]

/-- Is a call a `configureTest` (settings form submission)? -/
def InteractorCall.isConfigureTest : InteractorCall → Bool
  | .configureTest => true
  | _ => false

/-- Is a call an `addQuestion` submission? -/
def InteractorCall.isAddQuestion : InteractorCall → Bool
  | .addQuestion _ => true
  | _ => false

/-- Is a call a `reorderQuestions` submission? -/
def InteractorCall.isReorder : InteractorCall → Bool
  | .reorderQuestions => true
  | _ => false

/-! ## C10 — `ExtraFormData` and `_get_extra_form_values`
(src/ilias_tests/ilias_html.py)

`ExtraFormData` hashes and compares by `name` alone, so the Python `set` built
by `_get_extra_form_values` keys entries by field name, and `set.add` keeps
the first element added under each name.  The set is modelled as a list in
first-add order with exactly that `add`. -/

/-- A scraped form field whose presence must be preserved on resubmission.
Mirror of `ilias_html.ExtraFormData`; equality in the Python class is by
`name` only, which is modelled in the operations, not in this structure. -/
structure ExtraFormData where
  name : String
  value : String
  disabled : Bool
deriving DecidableEq, Repr

/-- Python `set.add` for a set of `ExtraFormData`: a no-op when an element
with the same name is already present. -/
def extraSetAdd (s : List ExtraFormData) (e : ExtraFormData) : List ExtraFormData :=
  if s.any (fun x => x.name == e.name) then s else s ++ [e]

/-- An `<input>`/`<textarea>` scraped from a form: its name, its `value`
attribute if present, and whether it carries a `disabled` attribute. -/
structure ScrapedField where
  name : String
  value : Option String
  disabled : Bool
deriving DecidableEq, Repr

/-- A `<select>` scraped from a form.  The source asserts that a selected
`<option>` exists; `selectedOptionValue` is that option's `value` attribute
(`none` when the attribute is absent, which the source reads as `""`). -/
structure ScrapedSelect where
  name : String
  selectedOptionValue : Option String
  disabled : Bool
deriving DecidableEq, Repr

/-- The slices of a form that `_get_extra_form_values` iterates, in source
order: required inputs, required textareas, all selects, then the names of
explicitly disabled inputs, selects and textareas. -/
structure ScrapedForm where
  requiredInputs : List ScrapedField
  requiredTextareas : List ScrapedField
  selects : List ScrapedSelect
  disabledInputs : List String
  disabledSelects : List String
  disabledTextareas : List String
deriving DecidableEq, Repr

/-- Every `ExtraFormData` the source tries to `add`, in iteration order. -/
def extraFormCandidates (form : ScrapedForm) : List ExtraFormData :=
  form.requiredInputs.map (fun f => ⟨f.name, f.value.getD "", f.disabled⟩)
  ++ form.requiredTextareas.map (fun f => ⟨f.name, f.value.getD "", f.disabled⟩)
  ++ form.selects.map (fun s => ⟨s.name, s.selectedOptionValue.getD "", s.disabled⟩)
  ++ form.disabledInputs.map (fun n => ⟨n, "", true⟩)
  ++ form.disabledSelects.map (fun n => ⟨n, "", true⟩)
  ++ form.disabledTextareas.map (fun n => ⟨n, "", true⟩)

/-- `ExtendedIliasPage._get_extra_form_values`: fold all candidates into the
name-keyed set. -/
def _get_extra_form_values (form : ScrapedForm) : List ExtraFormData :=
  (extraFormCandidates form).foldl extraSetAdd []

/-! ## C1 — form synthesis in `configure_test` and `add_question`
(src/ilias-tests/ilias_action.py)

Both functions merge caller-supplied explicit values with scraped extras:
`configure_test` adds every `data` item and then every `extra_data` item whose
key is not in `data` (plus an empty `tile_image` file part); `add_question`
folds the scraped `defaults` into `post_data` with `if key not in post_data`.
The scraped extras are quantified over in the theorems, so the dict returned
by the page model is an arbitrary assoc list here. -/

/-- One part of an outgoing `aiohttp.FormData` payload: a plain string field
or a zero-byte `application/octet-stream` placeholder part. -/
inductive FormValue where
  | str (s : String)
  | emptyFile
deriving DecidableEq, Repr

/-- A `datetime.datetime` as far as `_format_time` consumes it. -/
structure PyDateTime where
  year : Nat
  month : Nat
  day : Nat
  hour : Nat
  minute : Nat
deriving DecidableEq, Repr

/-- Zero-padded two-digit rendering, as Python `strftime` does. -/
def pad2 (n : Nat) : String :=
  if n < 10 then "0" ++ toString n else toString n

/-- `ilias_action._format_time`: empty string for `None`, else
`"%d.%m.%Y %H:%M"`. -/
def _format_time : Option PyDateTime → String
  | none => ""
  | some t =>
    pad2 t.day ++ "." ++ pad2 t.month ++ "." ++ toString t.year ++ " "
      ++ pad2 t.hour ++ ":" ++ pad2 t.minute

/-- The explicit `data` dict built inside `configure_test` from its semantic
parameters (the union of the eight literal parameter dicts, whose keys are
pairwise distinct). -/
def configure_test_data (title description intro_text : String)
    (starting_time ending_time : Option PyDateTime)
    (number_of_tries : Nat) (online : Bool) : List (String × String) :=
  [("cmd[saveForm]", "Speichern"),
   ("title", title),
   ("description", description),
   ("use_pool", "0"),
   ("question_set_type", "FIXED_QUEST_SET"),
   ("anonymity", "0"),
   ("online", if online then "1" else "0"),
   ("showinfo", "1"),
   ("intro_enabled", "1"),
   ("introduction", intro_text),
   ("starting_time", _format_time starting_time),
   ("ending_time", _format_time ending_time),
   ("limitPasses", "1"),
   ("nr_of_tries", toString number_of_tries),
   ("title_output", "0"),
   ("answer_fixation_handling", "none"),
   ("chb_use_previous_answers", "1"),
   ("postpone", "0"),
   ("autosave_ival", "30"),
   ("instant_feedback_trigger", "0")]

/-- `configure_test`'s `build_form_data`: all of `data`, then every
`extra_data` entry whose key is not in `data`, then the empty `tile_image`
file part. -/
def configure_test_build_form_data (data extra_data : List (String × String)) :
    List (String × FormValue) :=
  data.map (fun p => (p.1, FormValue.str p.2))
  ++ (extra_data.filter (fun p => !pyDictMem data p.1)).map
      (fun p => (p.1, FormValue.str p.2))
  ++ [("tile_image", FormValue.emptyFile)]

/-- The full `configure_test` payload for given semantic parameters and
scraped extras. -/
def configure_test_payload (title description intro_text : String)
    (starting_time ending_time : Option PyDateTime)
    (number_of_tries : Nat) (online : Bool)
    (extra_data : List (String × String)) : List (String × FormValue) :=
  configure_test_build_form_data
    (configure_test_data title description intro_text starting_time ending_time
      number_of_tries online)
    extra_data

/-- A value in `add_question`'s `post_data`: a string, or a `Path` that the
form builder turns into an empty placeholder file part. -/
inductive StrOrPath where
  | str (s : String)
  | path (p : String)
deriving DecidableEq, Repr

/-- `add_question`'s `post_data` after merging: the question's options plus
the submit button, then each scraped default added only `if key not in
post_data`. -/
def add_question_post_data (options : List (String × StrOrPath))
    (defaults : List (String × String)) : List (String × StrOrPath) :=
  defaults.foldl
    (fun acc p => if pyDictMem acc p.1 then acc else acc ++ [(p.1, StrOrPath.str p.2)])
    (pyDictSet options "cmd[saveReturn]" (StrOrPath.str "Speichern und zurückkehren"))

/-- `StrOrPath` values as they are encoded into the multipart payload. -/
def toFormValue : StrOrPath → FormValue
  | .str s => .str s
  | .path _ => .emptyFile

/-- `add_question`'s `build_form_data`: `Path` values become empty file
parts, strings are sent verbatim. -/
def add_question_build_form_data (post_data : List (String × StrOrPath)) :
    List (String × FormValue) :=
  post_data.map (fun p =>
    match p.2 with
    | .str s => (p.1, FormValue.str s)
    | .path _ => (p.1, FormValue.emptyFile))

/-- The full `add_question` payload for given question options and scraped
defaults. -/
def add_question_payload (options : List (String × StrOrPath))
    (defaults : List (String × String)) : List (String × FormValue) :=
  add_question_build_form_data (add_question_post_data options defaults)

/-! ## C4 — questions, page-design blocks and their YAML (de)serialization
(src/ilias_tests/spec.py)

The YAML layer itself is an external collaborator; the serialized form is
modelled as a `Yaml` value tree.  Python floats only pass through unchanged,
so they are `Rat`; `eval(str(n))` on the stored `max_bytes` int is the
identity and is modelled as reading the int back. -/

/-- `PageDesignBlockText.Characteristic` (source values `Standard`,
`Headline1`, `Headline2`, `Headline3`). -/
inductive Characteristic where
  | standard
  | heading1
  | heading2
  | heading3
deriving DecidableEq, Repr

/-- The closed union of `PageDesignBlockText` / `PageDesignBlockImage` /
`PageDesignBlockCode`.  A text block carries its `characteristic` field,
which defaults to `standard` in the source constructor. -/
inductive PageDesignBlock where
  | text (text_html : String) (characteristic : Characteristic)
  | image (path : String)
  | code (code : String) (language : String) (name : String)
deriving DecidableEq, Repr

/-- A serialized YAML value. -/
inductive Yaml where
  | s (v : String)
  | f (v : Rat)
  | i (v : Int)
  | b (v : Bool)
  | null
  | arr (items : List Yaml)
  | dict (entries : List (String × Yaml))

/-- Python `yml[k]` on a dict value: `KeyError` when absent. -/
def yamlGet (y : Yaml) (k : String) : Except String Yaml :=
  match y with
  | .dict entries =>
    match pyDictGet entries k with
    | some v => .ok v
    | none => .error ("KeyError: " ++ k)
  | _ => .error ("TypeError: not a dict for key " ++ k)

/-- Python `yml.get(k)` on a dict value: `none` when absent or not a dict. -/
def yamlGetOpt (y : Yaml) (k : String) : Option Yaml :=
  match y with
  | .dict entries => pyDictGet entries k
  | _ => none

/-- Expect a string value. -/
def Yaml.asStr : Yaml → Except String String
  | .s v => .ok v
  | _ => .error "TypeError: expected str"

/-- Expect a float value. -/
def Yaml.asFloat : Yaml → Except String Rat
  | .f v => .ok v
  | _ => .error "TypeError: expected float"

/-- Expect an int value. -/
def Yaml.asInt : Yaml → Except String Int
  | .i v => .ok v
  | _ => .error "TypeError: expected int"

/-- Expect a bool value. -/
def Yaml.asBool : Yaml → Except String Bool
  | .b v => .ok v
  | _ => .error "TypeError: expected bool"

/-- Expect a list value. -/
def Yaml.asArr : Yaml → Except String (List Yaml)
  | .arr v => .ok v
  | _ => .error "TypeError: expected list"

/-- `PageDesignBlock*.serialize`: the text block's `characteristic` field is
not written out. -/
def serializeBlock : PageDesignBlock → Yaml
  | .text t _ => .dict [("text", .s t), ("type", .s "text")]
  | .image p => .dict [("path", .s p), ("type", .s "image")]
  | .code c l n =>
    .dict [("code", .s c), ("language", .s l), ("name", .s n), ("type", .s "code")]

/-- `PageDesignBlock.deserialize`: dispatch on the `type` discriminator; a
deserialized text block always gets the default `standard` characteristic. -/
def deserializeBlock (y : Yaml) : Except String PageDesignBlock :=
  match yamlGetOpt y "type" with
  | none => .error "Could not find type for block"
  | some (.s "text") => do
    let t ← (← yamlGet y "text").asStr
    return .text t .standard
  | some (.s "image") => do
    let p ← (← yamlGet y "path").asStr
    return .image p
  | some (.s "code") => do
    let c ← (← yamlGet y "code").asStr
    let l ← (← yamlGet y "language").asStr
    let n ← (← yamlGet y "name").asStr
    return .code c l n
  | some _ => .error "Unknown type for block"

/-- `QuestionMultipleChoice.Answer`. -/
structure MCAnswer where
  answer : String
  points : Rat
  points_unchecked : Rat
deriving DecidableEq, Repr

/-- The closed union of the four `TestQuestion` variants with their fields
(`question_type` is determined by the variant). -/
inductive TestQuestion where
  | freeFormText (title author summary question_html : String)
      (page_design : List PageDesignBlock) (points : Rat)
  | uploadFile (title author summary question_html : String)
      (page_design : List PageDesignBlock) (points : Rat)
      (allowed_extensions : List String) (max_size_bytes : Int)
  | singleChoice (title author summary question_html : String)
      (page_design : List PageDesignBlock) (shuffle : Bool)
      (answers : List (String × Rat))
  | multipleChoice (title author summary question_html : String)
      (page_design : List PageDesignBlock) (shuffle : Bool)
      (answers : List MCAnswer) (selection_limit : Option Int)
deriving DecidableEq, Repr

/-- `TestQuestion.serialize`'s common part. -/
def serializeQuestionBase (title author summary question_html : String)
    (page_design : List PageDesignBlock) : List (String × Yaml) :=
  [("title", .s title),
   ("author", .s author),
   ("summary", .s summary),
   ("question_html", .s question_html),
   ("page_design", .arr (page_design.map serializeBlock))]

/-- The variant `serialize` overrides, in source dict-literal order. -/
def serializeQuestion : TestQuestion → Yaml
  | .freeFormText title author summary qh pd points =>
    .dict (serializeQuestionBase title author summary qh pd
      ++ [("points", .f points), ("type", .s "freeform_text")])
  | .uploadFile title author summary qh pd points exts maxBytes =>
    .dict (serializeQuestionBase title author summary qh pd
      ++ [("allowed_filetypes", .arr (exts.map .s)),
          ("max_bytes", .i maxBytes),
          ("points", .f points),
          ("type", .s "file_upload")])
  | .singleChoice title author summary qh pd shuffle answers =>
    .dict (serializeQuestionBase title author summary qh pd
      ++ [("answers", .arr (answers.map (fun a =>
            .dict [("answer", .s a.1), ("points", .f a.2)]))),
          ("shuffle", .b shuffle),
          ("type", .s "single_choice")])
  | .multipleChoice title author summary qh pd shuffle answers selection_limit =>
    .dict (serializeQuestionBase title author summary qh pd
      ++ [("answers", .arr (answers.map (fun a =>
            .dict [("answer", .s a.answer), ("points", .f a.points),
                   ("points_unchecked", .f a.points_unchecked)]))),
          ("shuffle", .b shuffle),
          ("type", .s "multiple_choice"),
          ("selection_limit",
            match selection_limit with
            | none => .null
            | some n => .i n)])

/-- `load_single_choice_question`'s answer extraction. -/
def deserializeSCAnswer (y : Yaml) : Except String (String × Rat) := do
  let a ← (← yamlGet y "answer").asStr
  let p ← (← yamlGet y "points").asFloat
  return (a, p)

/-- `load_multiple_choice_question`'s answer extraction. -/
def deserializeMCAnswer (y : Yaml) : Except String MCAnswer := do
  let a ← (← yamlGet y "answer").asStr
  let p ← (← yamlGet y "points").asFloat
  let pu ← (← yamlGet y "points_unchecked").asFloat
  return ⟨a, p, pu⟩

/-- `TestQuestion.deserialize`: read the discriminator and common fields, then
dispatch to the variant loader. -/
def deserializeQuestion (y : Yaml) : Except String TestQuestion := do
  let str_type ← (← yamlGet y "type").asStr
  let title ← (← yamlGet y "title").asStr
  let author ← (← yamlGet y "author").asStr
  let summary ← (← yamlGet y "summary").asStr
  let question_html ← (← yamlGet y "question_html").asStr
  let page_design ← (← yamlGet y "page_design").asArr
  let page_design ← page_design.mapM deserializeBlock
  if str_type = "file_upload" then
    let points ← (← yamlGet y "points").asFloat
    let exts ← (← yamlGet y "allowed_filetypes").asArr
    let exts ← exts.mapM Yaml.asStr
    let maxBytes ← (← yamlGet y "max_bytes").asInt
    return .uploadFile title author summary question_html page_design points exts maxBytes
  else if str_type = "freeform_text" then
    let points ← (← yamlGet y "points").asFloat
    return .freeFormText title author summary question_html page_design points
  else if str_type = "single_choice" then
    let answers ← (← yamlGet y "answers").asArr
    let answers ← answers.mapM deserializeSCAnswer
    let shuffle ← (← yamlGet y "shuffle").asBool
    return .singleChoice title author summary question_html page_design shuffle answers
  else if str_type = "multiple_choice" then
    let answers ← (← yamlGet y "answers").asArr
    let answers ← answers.mapM deserializeMCAnswer
    let shuffle ← (← yamlGet y "shuffle").asBool
    let selection_limit ←
      match yamlGetOpt y "selection_limit" with
      | none => Except.ok none
      | some .null => Except.ok none
      | some (.i n) => Except.ok (some n)
      | some _ => Except.error "TypeError: selection_limit"
    return .multipleChoice title author summary question_html page_design shuffle
      answers selection_limit
  else
    throw ("Unknown question type " ++ str_type)

/-- Does every text block of the list carry the default `standard`
characteristic? -/
def blocksAllStandardText (blocks : List PageDesignBlock) : Bool :=
  blocks.all (fun b =>
    match b with
    | .text _ c => c == .standard
    | _ => true)

/-- The `page_design` field of any variant. -/
def TestQuestion.page_design : TestQuestion → List PageDesignBlock
  | .freeFormText _ _ _ _ pd _ => pd
  | .uploadFile _ _ _ _ pd _ _ _ => pd
  | .singleChoice _ _ _ _ pd _ _ => pd
  | .multipleChoice _ _ _ _ pd _ _ _ => pd

/-! ## C6 — the path/glob resolver (src/ilias_tests/automation.py)

`_find_matching_elements` walks the remote hierarchy; each level's pattern
segment is handed to `re.fullmatch` via `spec.filter_with_regex`.  The
fragment of Python regular expressions the tool's patterns use — literal
characters, `.` and the `*` quantifier — is modelled by a small matcher;
any other metacharacter (where Python would bring its full engine or raise
`re.error`) is modelled as an invalid pattern that matches nothing. -/

/-- One regex atom of the modelled fragment. -/
inductive ReAtom where
  | lit (c : Char)
  | dot
deriving DecidableEq, Repr

/-- An atom together with its optional `*` quantifier. -/
structure RePiece where
  atom : ReAtom
  starred : Bool
deriving DecidableEq, Repr

/-- Characters the modelled regex fragment does not support. -/
def reMetachars : List Char :=
  ['+', '?', '[', ']', '(', ')', '{', '}', '|', '^', '$', '\\']

/-- Parse a pattern string of the modelled fragment; `none` for patterns
outside it (a dangling `*` raises `re.error` in Python). -/
def reParse : List Char → Option (List RePiece)
  | [] => some []
  | c :: '*' :: rest2 =>
    if c = '*' ∨ c ∈ reMetachars then none
    else
      (reParse rest2).map (fun ps =>
        ⟨if c = '.' then ReAtom.dot else ReAtom.lit c, true⟩ :: ps)
  | c :: rest =>
    if c = '*' ∨ c ∈ reMetachars then none
    else
      (reParse rest).map (fun ps =>
        ⟨if c = '.' then ReAtom.dot else ReAtom.lit c, false⟩ :: ps)

/-- Does an atom match one character? -/
def reAtomMatches : ReAtom → Char → Bool
  | .lit c, d => c == d
  | .dot, _ => true

/-- Full-match of a piece list against input; `fuel` bounds the recursion and
`pieces.length + input.length + 1` always suffices since every step shrinks
`pieces` or `input`. -/
def reMatchesFuel : Nat → List RePiece → List Char → Bool
  | 0, _, _ => false
  | _ + 1, [], [] => true
  | _ + 1, [], _ :: _ => false
  | _ + 1, ⟨_, false⟩ :: _, [] => false
  | fuel + 1, ⟨a, false⟩ :: ps, c :: cs => reAtomMatches a c && reMatchesFuel fuel ps cs
  | fuel + 1, ⟨_, true⟩ :: ps, [] => reMatchesFuel fuel ps []
  | fuel + 1, ⟨a, true⟩ :: ps, c :: cs =>
    reMatchesFuel fuel ps (c :: cs)
      || (reAtomMatches a c && reMatchesFuel fuel (⟨a, true⟩ :: ps) cs)

/-- Python `re.fullmatch(pattern, element) is not None` on the modelled
fragment. -/
def pyFullmatch (pattern element : String) : Bool :=
  match reParse pattern.toList with
  | none => false
  | some ps => reMatchesFuel (ps.length + element.length + 1) ps element.toList

/-- `spec.filter_with_regex(element, regex)`. -/
def filter_with_regex (element regex : String) : Bool :=
  pyFullmatch regex element

/-- A node of the remote hierarchy: its displayed name, its canonical URL and
its child elements in listing order. -/
inductive IliasNode where
  | mk (name : String) (url : String) (children : List IliasNode)

/-- Name of a node. -/
def IliasNode.name : IliasNode → String
  | .mk n _ _ => n

/-- Canonical URL of a node. -/
def IliasNode.url : IliasNode → String
  | .mk _ u _ => u

/-- Children of a node. -/
def IliasNode.children : IliasNode → List IliasNode
  | .mk _ _ cs => cs

/-- `automation._strip_first_path_segment`: split at the first `/`. -/
def _strip_first_path_segment (s : String) : String × Option String :=
  match pyFindStr s "/" with
  | some i => (String.mk (s.toList.take i), some (String.mk (s.toList.drop (i + 1))))
  | none => (s, none)

/-- `automation._matches_regex_part`: match a child name against the first
segment of the remaining pattern. -/
def _matches_regex_part (to_test glob_regex : String) : Bool :=
  filter_with_regex to_test (_strip_first_path_segment glob_regex).1

/-- `automation._sanitize_path_name`: path separators in remote names become
dashes, surrounding whitespace is stripped. -/
def _sanitize_path_name (name : String) : String :=
  pyTrim (pyReplace (pyReplace name "/" "-") "\\" "-")

/-- `automation._find_matching_elements`, recursion bounded by `fuel`.  An
empty remaining pattern (Python `if not regex`: `None` or `""`) makes the
node itself a match; otherwise the surviving children are recursed into with
the pattern's tail.  Each recursive call strips one `/`-separated segment, so
`regex.length + 1` fuel always suffices. -/
def findMatchingFuel : Nat → IliasNode → List String → Option String →
    List (List String × IliasNode)
  | _, root, root_path, none => [(root_path, root)]
  | 0, _, _, some _ => []
  | fuel + 1, root, root_path, some regex =>
    if regex = "" then [(root_path, root)]
    else
      let next := (_strip_first_path_segment regex).2
      ((root.children.filter (fun child => _matches_regex_part child.name regex)).map
        (fun child =>
          findMatchingFuel fuel child (root_path ++ [_sanitize_path_name child.name]) next)).flatten

/-- `automation._find_matching_elements` with sufficient fuel. -/
def _find_matching_elements (root : IliasNode) (root_path : List String)
    (regex : Option String) : List (List String × IliasNode) :=
  findMatchingFuel (match regex with | none => 0 | some r => r.length + 1)
    root root_path regex

/-- `automation.ilias_glob_regex`: run the walk from the root with an empty
relative path (`PurePath "."`), then deduplicate by canonical URL keeping the
first path and the last page stored under each URL, in first-seen order. -/
def ilias_glob_regex (root : IliasNode) (regex : String) :
    List (List String × IliasNode) :=
  ((_find_matching_elements root [] (some regex)).foldl
    (fun acc pr => pyDictSet acc pr.2.url pr) []).map (·.2)

/-! ## C7 / C8 — the manual-grading Markdown import (src/ilias_tests/spec.py)

`StringReader` and the line-oriented parsers are modelled directly; Python
`str.find` slices with their -1 convention are `pyFindInt`/`pySlice`.  The
importer reads a folder of `<question_id>.md` files, modelled as a list of
(file name, content) pairs in `glob` order. -/

/-- Python `s.find(sub)` with the -1-when-absent convention. -/
def pyFindInt (s sub : String) : Int :=
  match pyFindStr s sub with
  | some i => (i : Int)
  | none => -1

/-- Normalize one Python slice endpoint against a length. -/
def pySliceIdxNorm (len : Nat) (i : Int) : Nat :=
  if i < 0 then (if (len : Int) + i < 0 then 0 else ((len : Int) + i).toNat)
  else (if i > (len : Int) then len else i.toNat)

/-- Python `s[a:b]` with negative-index and clamping semantics. -/
def pySlice (s : String) (a b : Int) : String :=
  let cs := s.toList
  String.mk ((cs.take (pySliceIdxNorm cs.length b)).drop (pySliceIdxNorm cs.length a))

/-- `spec.StringReader`: a string with a cursor. -/
structure StringReader where
  underlying : List Char
  position : Nat
deriving DecidableEq, Repr

/-- Build a reader at position 0. -/
def StringReader.ofString (s : String) : StringReader :=
  ⟨s.toList, 0⟩

/-- `StringReader.read_until`: text up to the next occurrence of `pattern`,
cursor moved past it; `ValueError` when the pattern does not occur. -/
def StringReader.read_until (r : StringReader) (pattern : String) :
    Except String (String × StringReader) :=
  match findSubAux (r.underlying.drop r.position) pattern.toList 0 with
  | none => .error "Pattern not found"
  | some offset =>
    .ok (String.mk ((r.underlying.drop r.position).take offset),
         ⟨r.underlying, r.position + offset + pattern.length⟩)

/-- `StringReader.read_line`. -/
def StringReader.read_line (r : StringReader) : Except String (String × StringReader) :=
  r.read_until "\n"

/-- Number of newline characters at the head of the list. -/
def countLeadingNewlines : List Char → Nat
  | [] => 0
  | c :: rest => if c = '\n' then countLeadingNewlines rest + 1 else 0

/-- `StringReader.skip_blank_lines`. -/
def StringReader.skip_blank_lines (r : StringReader) : StringReader :=
  ⟨r.underlying, r.position + countLeadingNewlines (r.underlying.drop r.position)⟩

/-- `StringReader.read_rest`. -/
def StringReader.read_rest (r : StringReader) : String × StringReader :=
  (String.mk (r.underlying.drop r.position), ⟨r.underlying, r.underlying.length⟩)

/-- `StringReader.has_more`. -/
def StringReader.has_more (r : StringReader) : Bool :=
  r.position < r.underlying.length

/-- `StringReader.can_find`. -/
def StringReader.can_find (r : StringReader) (pattern : String) : Bool :=
  (findSubAux (r.underlying.drop r.position) pattern.toList 0).isSome

/-- Digits-to-value fold (0 on empty input). -/
def natVal (cs : List Char) : Nat :=
  cs.foldl (fun acc c => acc * 10 + (c.toNat - 48)) 0

/-- Python `float(s)` on the decimal literals this tool produces and reads:
optional sign, digits with an optional fractional part.  Anything else is a
`ValueError`. -/
def pyFloat (s : String) : Except String Rat :=
  let t := pyTrim s
  let neg := pyStartsWith t "-"
  let body := if pyStartsWith t "-" ∨ pyStartsWith t "+" then t.drop 1 else t
  let value : Option Rat :=
    match pySplitOn body "." with
    | [ip] =>
      if ip.toList.all Char.isDigit ∧ ip ≠ "" then some (mkRat (natVal ip.toList) 1)
      else none
    | [ip, fp] =>
      if ip.toList.all Char.isDigit ∧ fp.toList.all Char.isDigit ∧ (ip ≠ "" ∨ fp ≠ "") then
        some (mkRat (natVal ip.toList * 10 ^ fp.length + natVal fp.toList)
          (10 ^ fp.length))
      else none
    | _ => none
  match value with
  | some v => .ok (if neg then -v else v)
  | none => .error ("ValueError: could not convert string to float: " ++ s)

/-- `spec.ManualGradingParticipantInfo`. -/
structure ManualGradingParticipantInfo where
  last_name : String
  first_name : String
  email : String
  username : String
  detail_link : String
deriving DecidableEq, Repr

/-- `spec.ManualGradingQuestion`; `question_type` is one of the four literal
type names. -/
structure ManualGradingQuestion where
  id : String
  text : String
  max_points : Rat
  question_type : String
deriving DecidableEq, Repr

/-- `spec.ManualGradingGradedQuestion` as the Markdown importer produces it
(the importer's `answer` is always a string). -/
structure ManualGradingGradedQuestion where
  question : ManualGradingQuestion
  answer : String
  points : Rat
  feedback : Option String
  final_feedback : Bool
deriving DecidableEq, Repr

/-- `spec.ManualGradingParticipantResults`. -/
structure ManualGradingParticipantResults where
  participant : ManualGradingParticipantInfo
  answers : List ManualGradingGradedQuestion
deriving DecidableEq, Repr

/-- The raw fields `_parse_student_question_result` reads off the stream
before it builds and validates the graded question. -/
structure RawStudentResult where
  student_mail : String
  points_str : String
  max_points_str : String
  answer : String
  feedback : String
deriving DecidableEq, Repr

/-- The reading phase of `_parse_student_question_result`: everything up to
the construction of `ManualGradingGradedQuestion`. -/
def parseStudentRaw (reader : StringReader) :
    Except String (RawStudentResult × StringReader) := do
  let (line, reader) ← reader.read_line
  let student_mail := pyReplace (pyTrim line) "## " ""
  let student_mail := pyTrim (pySlice student_mail 0 (pyFindInt student_mail "("))
  let (_, reader) ← reader.read_until "### Answer"
  let (ptsLine, reader) ← reader.read_line
  let (points_str, max_points_str) ←
    match pySplitOn (pyReplace ptsLine " " "") "/" with
    | [p, m] => Except.ok (p, m)
    | _ => Except.error "ValueError: not enough values to unpack"
  let (_, reader) ← reader.read_until "```\n"
  let (answer, reader) ← reader.read_until "\n```\n"
  let (_, reader) ← reader.read_until "----\n"
  let (feedback, reader) ←
    if reader.can_find "## " then do
      let (fb, reader) ← reader.read_until "## "
      Except.ok (pyTrim fb, reader)
    else
      Except.ok (pyTrim (reader.read_rest).1, (reader.read_rest).2)
  return (⟨student_mail, points_str, max_points_str, answer, feedback⟩, reader)

/-- The construction-and-validation phase of `_parse_student_question_result`:
convert the points, classify the question type, and reject points above the
maximum with an error naming the question and the participant. -/
def validateStudentResult (question_id question_title : String)
    (raw : RawStudentResult) : Except String (String × ManualGradingGradedQuestion) := do
  let max_points ← pyFloat raw.max_points_str
  let points ← pyFloat raw.points_str
  let qtype := if raw.answer = "file\\_upload" then "file_upload" else "freeform_text"
  let graded : ManualGradingGradedQuestion :=
    ⟨⟨question_id, question_title, max_points, qtype⟩, raw.answer, points,
     some raw.feedback, false⟩
  if graded.points > graded.question.max_points then
    throw ("Question " ++ question_title ++ " for " ++ raw.student_mail
      ++ " exceeds max points (" ++ toString graded.points ++ " > "
      ++ toString graded.question.max_points ++ ")")
  return (raw.student_mail, graded)

/-- `spec._parse_student_question_result`: read, then build and validate. -/
def _parse_student_question_result (reader : StringReader)
    (question_id question_title : String) :
    Except String ((String × ManualGradingGradedQuestion) × StringReader) := do
  let (raw, reader) ← parseStudentRaw reader
  let sg ← validateStudentResult question_id question_title raw
  return (sg, reader)

/-- The `while reader.has_more()` loop of
`_parse_manual_grading_question_file`; each iteration consumes at least the
newline of its first `read_line`, so `underlying.length + 1` fuel suffices. -/
def parseQuestionFileLoop : Nat → StringReader → String → String →
    List (String × ManualGradingGradedQuestion) →
    Except String (List (String × ManualGradingGradedQuestion))
  | 0, _, _, _, _ => .error "internal: loop fuel exhausted"
  | fuel + 1, reader, question_id, question_title, acc =>
    if reader.has_more then do
      let ((mail, graded), reader) ←
        _parse_student_question_result reader question_id question_title
      parseQuestionFileLoop fuel reader.skip_blank_lines question_id question_title
        (pyDictSet acc mail graded)
    else
      .ok acc

/-- `spec._parse_manual_grading_question_file`. -/
def _parse_manual_grading_question_file (question_id text : String) :
    Except String (List (String × ManualGradingGradedQuestion)) := do
  let reader := StringReader.ofString text
  let (firstLine, reader) ← reader.read_line
  let question_title := pyReplace (pyTrim firstLine) "# " ""
  let (_, reader) ← reader.read_until "## "
  parseQuestionFileLoop (reader.underlying.length + 1) reader question_id
    question_title []

/-- `spec._parse_students_from_md`: one participant info per `## ` heading,
keyed by the email before the parenthesized `Last, First` name. -/
def _parse_students_from_md (text : String) :
    Except String (List (String × ManualGradingParticipantInfo)) :=
  ((pySplitlines text).filter (fun l => pyStartsWith l "## ")).foldlM
    (fun acc line => do
      let student := pyReplace line "## " ""
      let email := pyTrim (pySlice student 0 (pyFindInt student "("))
      let username := ((pySplitOn email "@").headD "")
      let inner := pySlice student (pyFindInt student "(" + 1) (pyFindInt student ")")
      let (last_name, first_name) ←
        match pySplitOn inner ", " with
        | [l, f] => Except.ok (l, f)
        | _ => Except.error "ValueError: not enough values to unpack"
      Except.ok (pyDictSet acc email ⟨last_name, first_name, email, username, ""⟩))
    []

/-- Append a graded question to the participant stored under `email`. -/
def appendAnswer (acc : List (String × ManualGradingParticipantResults))
    (email : String) (result : ManualGradingGradedQuestion) :
    List (String × ManualGradingParticipantResults) :=
  acc.map (fun p =>
    if p.1 == email then (p.1, ⟨p.2.participant, p.2.answers ++ [result]⟩) else p)

/-- `spec.load_manual_grading_results_from_md` over a folder given as
(file name, content) pairs in `glob` order: parse each question file, check
every listed participant has an answer, accumulate answers per email, and
finally reject folders whose participants have differing answer counts. -/
def load_manual_grading_results_from_md (files : List (String × String)) :
    Except String (List (String × ManualGradingParticipantResults)) := do
  let participant_results ← files.foldlM
    (fun acc file => do
      let (fname, content) := file
      let question_id := pyReplace fname ".md" ""
      let question_results ← _parse_manual_grading_question_file question_id content
      let students ← _parse_students_from_md content
      match students.find? (fun si => !(pyDictMem question_results si.1)) with
      | some si =>
        throw ("Missing answer from " ++ si.2.first_name ++ " " ++ si.2.last_name
          ++ " in file " ++ fname)
      | none =>
        question_results.foldlM
          (fun acc2 er => do
            let (email, result) := er
            if pyDictMem acc2 email then
              Except.ok (appendAnswer acc2 email result)
            else
              match pyDictGet students email with
              | some info =>
                Except.ok (acc2 ++ [(email, ⟨info, [result]⟩)])
              | none => Except.error ("KeyError: " ++ email))
          acc)
    []
  let answer_counts := participant_results.map (fun p => p.2.answers.length)
  if answer_counts.dedup.length ≠ 1 then
    throw ("Participants have different number of answers: " ++ toString answer_counts)
  return participant_results

/-- `automation.upload_grading_state` up to its network phase: parse the saved
grading data first; only when that succeeds does one upload per remote
participant happen (the returned list, one entry per participant email).  A
parse error aborts before any upload. -/
def upload_grading_state (files : List (String × String))
    (participant_emails : List String) : Except String (List String) := do
  let _results_by_mail ← load_manual_grading_results_from_md files
  return participant_emails

/-! ## C9 — the question listing (src/ilias_tests/ilias_html.py)

`_get_test_question_ids_and_links` reads the `tst_qst_lst*` table.  A page is
modelled by its URL, the optional table (its `tbody` rows, each row with the
`name` attributes of its `td` descendants and its `<a>` descendants in
document order) and the stripped-on-read texts of the page's `.alert`
elements. -/

/-- An `<a>` tag: its text and its (resolved) target URL. -/
structure LinkTag where
  text : String
  href : String
deriving DecidableEq, Repr

/-- A `<td>` descendant of a row: its `name` attribute, if any. -/
structure TdCell where
  nameAttr : Option String
deriving DecidableEq, Repr

/-- One `tbody` row of the questions table. -/
structure QuestionRow where
  tds : List TdCell
  links : List LinkTag
deriving DecidableEq, Repr

/-- A page on which the question listing is requested. -/
structure QuestionListingPage where
  url : String
  table : Option (List QuestionRow)
  alerts : List String
deriving DecidableEq, Repr

/-- The first `td` of a row whose `name` attribute starts with `order[`. -/
def orderTd (row : QuestionRow) : Option TdCell :=
  row.tds.find? (fun td =>
    match td.nameAttr with
    | some n => pyStartsWith n "order["
    | none => false)

/-- The per-row body of `_get_test_question_ids_and_links`: skip single-`td`
rows as "no questions" placeholders; fail on a row without an `order[`
column, with the page's alert texts in the message; otherwise append the
(question id, first link) pair. -/
def questionRowStep (page : QuestionListingPage)
    (acc : List (String × Option LinkTag)) (row : QuestionRow) :
    Except String (List (String × Option LinkTag)) :=
  if row.tds.length = 1 then Except.ok acc
  else
    match orderTd row with
    | none =>
      .error ("Could not find order column. Page-Alerts: "
        ++ String.join (page.alerts.map pyTrim))
    | some td =>
      let question_id :=
        pyTrim (pyReplace (pyReplace (td.nameAttr.getD "") "order[" "") "]" "")
      Except.ok (acc ++ [(question_id, row.links.head?)])

/-- `ExtendedIliasPage._get_test_question_ids_and_links`: reject wrong pages
and a missing table, then fold `questionRowStep` over the table's rows. -/
def _get_test_question_ids_and_links (page : QuestionListingPage) :
    Except String (List (String × Option LinkTag)) := do
  if ¬ (pyContains (pyToLower page.url) "cmd=questions"
        ∧ pyContains (pyToLower page.url) "ilobjtestgui") then
    throw "Not on test question page"
  match page.table with
  | none => throw "Did not find questions table"
  | some rows => rows.foldlM (questionRowStep page) []

/-- `ExtendedIliasPage.get_test_question_listing`: (title, url) per question
row; a row whose link is missing crashes (`AttributeError` on `None`). -/
def get_test_question_listing (page : QuestionListingPage) :
    Except String (List (String × String)) := do
  let rows ← _get_test_question_ids_and_links page
  rows.mapM (fun r =>
    match r.2 with
    | some link => Except.ok (pyTrim link.text, link.href)
    | none => Except.error "AttributeError: NoneType has no attribute getText")

/-! ## Example inputs used by the concrete theorems -/

/-- The tree `./foo/{hey,baz}/bar` from claim C6: a root whose folder `foo`
has children `hey` and `baz`, each containing a leaf `bar`.  URLs are
distinct. -/
def c6Tree : IliasNode :=
  .mk "." "u0"
    [.mk "foo" "u1"
      [.mk "hey" "u2" [.mk "bar" "u3" []],
       .mk "baz" "u4" [.mk "bar" "u5" []]]]

/-- A grading export for one question with one participant, 5 of 10 points. -/
def c7GoodMd : String :=
  "# Question One\n\n## alice@example.com (Alice, A)\n\n### Answer 5.0 / 10.0\n"
    ++ "```\nanswer text\n```\n----\ngood job\n\n"

/-- The same export with 15 awarded points exceeding the maximum of 10. -/
def c7BadMd : String :=
  "# Question One\n\n## alice@example.com (Alice, A)\n\n### Answer 15.0 / 10.0\n"
    ++ "```\nanswer text\n```\n----\ngood job\n\n"

/-- The reader for `c7GoodMd` positioned where
`_parse_manual_grading_question_file` starts the per-student loop (after the
title line and the first `## `). -/
def c7GoodReader : StringReader :=
  ⟨c7GoodMd.toList, 19⟩

/-- The graded question parsed from `c7GoodMd`. -/
def c7GoodGraded : ManualGradingGradedQuestion :=
  ⟨⟨"q1", "Question One", 10, "freeform_text"⟩, "answer text", 5, some "good job", false⟩

/-- The validation error produced for `c7BadMd`. -/
def c7BadMsg : String :=
  "Question Question One for alice@example.com exceeds max points (15 > 10)"

/-- A grading export for one question answered by two participants. -/
def c8TwoMd : String :=
  "# Question Two\n\n## alice@example.com (Alice, A)\n\n### Answer 5.0 / 10.0\n"
    ++ "```\na1\n```\n----\nfb1\n\n"
    ++ "## bob@example.com (Bob, B)\n\n### Answer 3.0 / 10.0\n"
    ++ "```\na2\n```\n----\nfb2\n\n"

/-- A grading folder in which alice ends up with 3 answers but bob with 2. -/
def c8Files : List (String × String) :=
  [("q1.md", c8TwoMd), ("q2.md", c8TwoMd), ("q3.md", c7GoodMd)]

/-- A listing page whose table has one multi-cell row without any `order[`
column, on a page showing an alert. -/
def c9BadRowPage : QuestionListingPage :=
  ⟨"https://h/ilias.php?cmd=questions&cmdClass=ilObjTestGUI",
   some [⟨[⟨none⟩, ⟨some "foo"⟩], []⟩],
   ["  Alert text "]⟩

/-- A listing page with no questions table at all but a visible alert. -/
def c9NoTablePage : QuestionListingPage :=
  ⟨"https://h/ilias.php?cmd=questions&cmdClass=ilObjTestGUI",
   none,
   ["Boom"]⟩

/-- A question with a non-default text-block characteristic (as produced by
`raw_html_to_page_design` for `h1`/`h2`/`h3` elements). -/
def c4HeadingQuestion : TestQuestion :=
  .freeFormText "t" "a" "s" "q" [.text "x" .heading1] 2

/-- A question of each block kind with only default text characteristics. -/
def c4StandardQuestion : TestQuestion :=
  .freeFormText "t" "a" "s" "q" [.text "x" .standard, .image "p", .code "c" "l" "n"] 2

/-! # Theorems -/

/-! ### C5 -/

/-- C5: for every list of question titles, `add_test` submits the settings
form (`configure_test`) exactly twice, issues exactly one question-add per
question (in order), exactly one reorder submission, and the two settings
submissions precede the question-adds, which precede the reorder. -/
theorem c5_add_test_double_submit_and_counts (question_titles : List String) :
    ((add_test_calls question_titles).countP (·.isConfigureTest) = 2)
    ∧ ((add_test_calls question_titles).filter (·.isAddQuestion)
        = question_titles.map .addQuestion)
    ∧ ((add_test_calls question_titles).countP (·.isReorder) = 1)
    ∧ add_test_calls question_titles
      = [.createTest, .selectTab "SETTINGS", .configureTest, .configureTest,
         .configureTestScoring, .selectTab "QUESTIONS"]
        ++ question_titles.map .addQuestion
        ++ [.selectTab "QUESTIONS", .reorderQuestions] := by
  refine ⟨?_, ?_, ?_, rfl⟩ <;>
    simp [add_test_calls, List.countP_append, List.filter_append, List.countP_map,
      List.filter_map, Function.comp_def, InteractorCall.isConfigureTest,
      InteractorCall.isAddQuestion, InteractorCall.isReorder, List.countP_cons,
      List.countP_nil]

/-! ### C3 -/

/-- C3: `authenticate(capturedGeneration)` skips the login flow and leaves the
state unchanged when the process-wide generation no longer equals the captured
one; otherwise it performs the login flow, increments the generation by
exactly one (touching nothing else), and persists the cookies immediately
after the bump. -/
theorem c3_authenticate_generation (st : InteractorState) (caller_auth_id : Nat) :
    (caller_auth_id ≠ st.authentication_id →
      authenticate st caller_auth_id = (st, []))
    ∧ (caller_auth_id = st.authentication_id →
      (authenticate st caller_auth_id).1.authentication_id = st.authentication_id + 1
      ∧ (authenticate st caller_auth_id).1.request_count = st.request_count
      ∧ (authenticate st caller_auth_id).2
          = [.login, .bumpGeneration, .saveCookies]) := by
  constructor
  · intro h
    simp [authenticate, h]
  · intro h
    simp [authenticate, h]

/-- Witness for C3 at generation 0: a stale captured id 1 leaves the state
untouched, a current captured id 0 bumps the generation to 1. -/
theorem c3_authenticate_generation_witness :
    authenticate ⟨0, 5⟩ 1 = (⟨0, 5⟩, [])
    ∧ (authenticate ⟨0, 5⟩ 0).1.authentication_id = 1 := by
  have h1 := c3_authenticate_generation ⟨0, 5⟩ 1
  have h0 := c3_authenticate_generation ⟨0, 5⟩ 0
  exact ⟨h1.1 (by decide), (h0.2 rfl).1⟩

/-! ### C2 -/

/-- C2: each of the four logical request kinds — page fetch (`_get_soup`),
authenticated form post (`_post_authenticated`), JSON post
(`_post_authenticated_json`) and file download (`download_file`) — attempts
the request, on failure authenticates and retries exactly once, and raises a
fatal error instead of retrying further when the retried attempt also
fails. -/
theorem c2_retry_exactly_once {α : Type} (first second : Option α) (url : String) :
    retryOnceBehavior first second (get_soup_run first second url)
    ∧ retryOnceBehavior first second (post_authenticated_run first second)
    ∧ retryOnceBehavior first second (post_authenticated_json_run first second)
    ∧ retryOnceBehavior first second (download_file_run first second url) := by
  cases first <;> cases second <;>
    simp [retryOnceBehavior, get_soup_run, post_authenticated_run,
      post_authenticated_json_run, download_file_run, ReqOutcome.attemptCount,
      ReqOutcome.authCount, ReqOutcome.isFatal]

/-- Witness for C2 with both attempts failing on a page fetch: the outcome is
fatal after 2 attempts and 1 authentication. -/
theorem c2_retry_exactly_once_witness :
    (get_soup_run (none : Option Nat) none "url").isFatal = true
    ∧ (get_soup_run (none : Option Nat) none "url").attemptCount = 2
    ∧ (get_soup_run (none : Option Nat) none "url").authCount = 1 := by
  have h := c2_retry_exactly_once (α := Nat) none none "url"
  exact ⟨h.1.2.2.1.mpr ⟨rfl, rfl⟩, by decide, by decide⟩

/-! ### C10 -/

/-- Folding candidates into the name-keyed set preserves distinctness of the
stored names. -/
theorem extraSetAdd_fold_nodup (cs : List ExtraFormData) (acc : List ExtraFormData)
    (h : (acc.map (·.name)).Nodup) :
    (((cs.foldl extraSetAdd acc).map (·.name))).Nodup := by
  induction cs generalizing acc with
  | nil => exact h
  | cons c cs ih =>
    simp only [List.foldl_cons]
    apply ih
    unfold extraSetAdd
    split
    · exact h
    · rename_i hna
      simp only [List.any_eq_true, beq_iff_eq, not_exists, not_and] at hna
      simp only [List.map_append, List.map_cons, List.map_nil, List.nodup_append]
      refine ⟨h, List.nodup_singleton _, ?_⟩
      intro x hx hc
      simp only [List.mem_singleton] at hc
      obtain ⟨y, hy, hyn⟩ := List.mem_map.mp hx
      exact (hna y hy) (hyn.trans hc)

/-- The first candidate with a given name is the one the folded set stores
under that name. -/
theorem extraSetAdd_fold_find? (cs acc : List ExtraFormData) (n : String) :
    (cs.foldl extraSetAdd acc).find? (·.name == n)
      = ((acc.find? (·.name == n)).orElse (fun _ => cs.find? (·.name == n))) := by
  induction cs generalizing acc with
  | nil => cases hacc : acc.find? (·.name == n) <;> simp [Option.orElse, hacc]
  | cons c cs ih =>
    simp only [List.foldl_cons]
    rw [ih]
    unfold extraSetAdd
    split
    · rename_i hmem
      by_cases hc : (c.name == n)
      · have hsome : (acc.find? (·.name == n)).isSome := by
          rw [List.find?_isSome]
          simp only [List.any_eq_true, beq_iff_eq] at hmem
          obtain ⟨x, hx, hxn⟩ := hmem
          exact ⟨x, hx, by simp [hxn, beq_iff_eq.mp hc]⟩
        obtain ⟨e, he⟩ := Option.isSome_iff_exists.mp hsome
        simp [he, Option.orElse]
      · simp only [List.find?_cons, hc]
    · rename_i hna
      rw [List.find?_append]
      simp only [List.find?_cons]
      by_cases hc : (c.name == n)
      · have hnone : acc.find? (·.name == n) = none := by
          rw [List.find?_eq_none]
          intro x hx
          simp only [List.any_eq_true, beq_iff_eq, not_exists, not_and] at hna
          simp only [beq_iff_eq]
          intro hxn
          exact (hna x hx) (hxn.trans (beq_iff_eq.mp hc).symm)
        simp [hc, hnone, Option.orElse, List.find?_singleton]
      · simp [hc, Option.orElse, List.find?_singleton]

/-- Everything stored in the folded set came from the accumulator or the
candidates. -/
theorem extraSetAdd_fold_mem (cs : List ExtraFormData) (acc : List ExtraFormData)
    (e : ExtraFormData) (h : e ∈ cs.foldl extraSetAdd acc) : e ∈ acc ∨ e ∈ cs := by
  induction cs generalizing acc with
  | nil => exact Or.inl h
  | cons c cs ih =>
    simp only [List.foldl_cons] at h
    rcases ih (extraSetAdd acc c) h with hmem | hmem
    · unfold extraSetAdd at hmem
      split at hmem
      · exact Or.inl hmem
      · rcases List.mem_append.mp hmem with h2 | h2
        · exact Or.inl h2
        · simp only [List.mem_singleton] at h2
          exact Or.inr (h2 ▸ List.mem_cons_self c cs)
    · exact Or.inr (List.mem_cons_of_mem c hmem)

/-- C10: `_get_extra_form_values` yields at most one entry per field name
(`ExtraFormData` equality/hashing is by name), the entry stored under a name
is the first scraped candidate — e.g. required-with-value before the
disabled pass — with that name, and every entry is one of the scraped
candidates, so the payload never carries two scraped values for one field. -/
theorem c10_extra_values_unique_per_name (form : ScrapedForm) :
    (((_get_extra_form_values form).map (·.name))).Nodup
    ∧ (∀ n, (_get_extra_form_values form).find? (·.name == n)
        = (extraFormCandidates form).find? (·.name == n))
    ∧ (∀ e, e ∈ _get_extra_form_values form → e ∈ extraFormCandidates form) := by
  refine ⟨?_, ?_, ?_⟩
  · exact extraSetAdd_fold_nodup _ [] (by simp)
  · intro n
    rw [_get_extra_form_values, extraSetAdd_fold_find?]
    simp [Option.orElse]
  · intro e he
    rcases extraSetAdd_fold_mem _ [] e he with h | h
    · simp at h
    · exact h

/-! ### C1 -/

/-- Membership in a concatenated dict view. -/
theorem pyDictMem_append (a b : List (String × α)) (k : String) :
    pyDictMem (a ++ b) k = (pyDictMem a k || pyDictMem b k) := by
  simp [pyDictMem, List.any_append]

/-- `pyDictMem` as an existence statement. -/
theorem pyDictMem_iff (l : List (String × α)) (k : String) :
    pyDictMem l k = true ↔ ∃ p ∈ l, p.1 = k := by
  simp [pyDictMem, List.any_eq_true, beq_iff_eq]

/-- A successful lookup implies membership. -/
theorem pyDictMem_of_get (l : List (String × α)) (k : String) (v : α)
    (h : pyDictGet l k = some v) : pyDictMem l k = true := by
  rw [pyDictMem_iff]
  unfold pyDictGet at h
  cases hf : l.find? (fun p => p.1 == k) with
  | none => simp [hf] at h
  | some p =>
    have hp := List.find?_some hf
    exact ⟨p, List.mem_of_find?_eq_some hf, by simpa using hp⟩

/-- With pairwise-distinct keys, every entry stored under a key carries the
looked-up value. -/
theorem pyDictGet_unique (l : List (String × α)) (k : String) (v : α)
    (hnd : (l.map Prod.fst).Nodup) (hget : pyDictGet l k = some v) :
    ∀ w, (k, w) ∈ l → w = v := by
  induction l with
  | nil => simp [pyDictGet] at hget
  | cons p l ih =>
    intro w hw
    simp only [List.map_cons, List.nodup_cons] at hnd
    unfold pyDictGet at hget
    rw [List.find?_cons] at hget
    by_cases hk : (p.1 == k) = true
    · rw [hk] at hget
      have hv : p.2 = v := by simpa using hget
      rcases List.mem_cons.mp hw with h | h
      · rw [← h] at hv
        exact hv
      · exfalso
        apply hnd.1
        rw [show p.1 = k from beq_iff_eq.mp hk]
        exact List.mem_map.mpr ⟨(k, w), h, rfl⟩
    · rw [show (p.1 == k) = false by simpa using hk] at hget
      rcases List.mem_cons.mp hw with h | h
      · exfalso
        rw [← h] at hk
        simp at hk
      · exact ih hnd.2 hget w h

/-- `pyDictSet` leaves the key list intact when the key is present and appends
the key otherwise; either way it preserves distinct keys. -/
theorem pyDictSet_keys_nodup (l : List (String × α)) (k : String) (v : α)
    (hnd : (l.map Prod.fst).Nodup) :
    ((pyDictSet l k v).map Prod.fst).Nodup := by
  unfold pyDictSet
  split
  · have : (l.map (fun p => if p.1 == k then (k, v) else p)).map Prod.fst
        = l.map Prod.fst := by
      rw [List.map_map]
      apply List.map_congr_left
      intro p _
      by_cases h : p.1 = k
      · simp [h]
      · simp [h]
    rw [this]
    exact hnd
  · rename_i hmem
    simp only [List.map_append, List.map_cons, List.map_nil, List.nodup_append]
    refine ⟨hnd, List.nodup_singleton _, ?_⟩
    intro x hx hk
    simp only [List.mem_singleton] at hk
    subst hk
    exact hmem (by rw [pyDictMem_iff]; simpa [eq_comm] using List.mem_map.mp hx)

/-- The `add_question` defaults fold only appends entries whose names are
absent from the accumulator. -/
theorem add_defaults_fold_ext (ds : List (String × String))
    (acc : List (String × StrOrPath)) :
    ∃ ext,
      ds.foldl (fun acc p =>
          if pyDictMem acc p.1 then acc else acc ++ [(p.1, StrOrPath.str p.2)]) acc
        = acc ++ ext
      ∧ ∀ q ∈ ext, pyDictMem acc q.1 = false := by
  induction ds generalizing acc with
  | nil => exact ⟨[], by simp⟩
  | cons d ds ih =>
    simp only [List.foldl_cons]
    by_cases hd : pyDictMem acc d.1
    · obtain ⟨ext, he, hp⟩ := ih acc
      exact ⟨ext, by simp [hd, he], hp⟩
    · obtain ⟨ext, he, hp⟩ := ih (acc ++ [(d.1, StrOrPath.str d.2)])
      refine ⟨(d.1, StrOrPath.str d.2) :: ext, ?_, ?_⟩
      · simp only [hd, if_false, Bool.false_eq_true] at he ⊢
        rw [he, List.append_assoc]
        rfl
      · intro q hq
        rcases List.mem_cons.mp hq with h | h
        · rw [h]
          exact Bool.not_eq_true _ ▸ (by simpa using hd)
        · have := hp q h
          rw [pyDictMem_append] at this
          exact (Bool.or_eq_false_iff.mp this).1

/-- A scraped default absent from the explicit values survives the fold. -/
theorem add_defaults_fold_preserved (ds : List (String × String))
    (acc : List (String × StrOrPath)) (n v : String)
    (hnd : (ds.map Prod.fst).Nodup) (hnv : (n, v) ∈ ds)
    (hmem : pyDictMem acc n = false) :
    (n, StrOrPath.str v) ∈ ds.foldl (fun acc p =>
        if pyDictMem acc p.1 then acc else acc ++ [(p.1, StrOrPath.str p.2)]) acc := by
  induction ds generalizing acc with
  | nil => simp at hnv
  | cons d ds ih =>
    simp only [List.map_cons, List.nodup_cons] at hnd
    simp only [List.foldl_cons]
    rcases List.mem_cons.mp hnv with h | h
    · subst h
      simp only [hmem, if_false, Bool.false_eq_true]
      obtain ⟨ext, he, _⟩ := add_defaults_fold_ext ds (acc ++ [(n, StrOrPath.str v)])
      rw [he]
      exact List.mem_append_left _ (List.mem_append_right _ (List.mem_singleton.mpr rfl))
    · have hne : d.1 ≠ n := by
        intro hcontra
        exact hnd.1 (hcontra ▸ List.mem_map.mpr ⟨(n, v), h, rfl⟩)
      by_cases hd : pyDictMem acc d.1
      · simp only [hd, if_true]
        exact ih acc hnd.2 h hmem
      · simp only [hd, if_false, Bool.false_eq_true]
        apply ih _ hnd.2 h
        rw [pyDictMem_append, hmem]
        simpa [pyDictMem] using hne

/-- Payload entries of `add_question_build_form_data` are exactly the encoded
`post_data` entries. -/
theorem add_question_build_mem (l : List (String × StrOrPath)) (n : String)
    (w : FormValue) :
    (n, w) ∈ add_question_build_form_data l
      ↔ ∃ u, (n, u) ∈ l ∧ w = toFormValue u := by
  unfold add_question_build_form_data
  rw [List.mem_map]
  constructor
  · rintro ⟨⟨pn, pv⟩, hp, he⟩
    cases pv with
    | str s =>
      simp only [Prod.mk.injEq] at he
      refine ⟨.str s, ?_, ?_⟩
      · rw [he.1] at hp
        exact hp
      · rw [← he.2]
        rfl
    | path q =>
      simp only [Prod.mk.injEq] at he
      refine ⟨.path q, ?_, ?_⟩
      · rw [he.1] at hp
        exact hp
      · rw [← he.2]
        rfl
  · rintro ⟨u, hu, hw⟩
    refine ⟨(n, u), hu, ?_⟩
    cases u <;> simp [toFormValue] at hw <;> simp [hw]

/-- The key list of `configure_test_data` is a fixed literal list. -/
theorem configure_test_data_keys (title description intro_text : String)
    (st et : Option PyDateTime) (tries : Nat) (online : Bool) :
    (configure_test_data title description intro_text st et tries online).map
        Prod.fst
      = ["cmd[saveForm]", "title", "description", "use_pool",
         "question_set_type", "anonymity", "online", "showinfo", "intro_enabled",
         "introduction", "starting_time", "ending_time", "limitPasses",
         "nr_of_tries", "title_output", "answer_fixation_handling",
         "chb_use_previous_answers", "postpone", "autosave_ival",
         "instant_feedback_trigger"] := rfl

/-- `pyDictMem` only inspects the key list. -/
theorem pyDictMem_eq_keys_any (l : List (String × α)) (k : String) :
    pyDictMem l k = (l.map Prod.fst).any (· == k) := by
  unfold pyDictMem
  induction l with
  | nil => rfl
  | cons p l ih => simp [List.any_cons, ih]

/-- C1: in both synthesized form submissions — `configure_test` and
`add_question` — every scraped extra field not explicitly overridden appears
verbatim (as its string value) in the outgoing payload, and every payload
entry for a field name the caller supplied explicitly carries the caller's
value, never the scraped one.  The explicit dict for `add_question` is its
`post_data` (the question options plus the submit button); the key-Nodup
hypotheses hold for every Python dict. -/
theorem c1_explicit_values_beat_scraped_extras :
    (∀ (title description intro_text : String) (st et : Option PyDateTime)
        (tries : Nat) (online : Bool) (extra_data : List (String × String))
        (n v : String),
      ((n, v) ∈ extra_data →
        pyDictMem (configure_test_data title description intro_text st et tries
          online) n = false →
        (n, FormValue.str v)
          ∈ configure_test_payload title description intro_text st et tries
              online extra_data)
      ∧ (pyDictGet (configure_test_data title description intro_text st et tries
            online) n = some v →
          ∀ w, (n, w) ∈ configure_test_payload title description intro_text st et
              tries online extra_data →
            w = FormValue.str v))
    ∧ (∀ (options : List (String × StrOrPath))
        (defaults : List (String × String)) (n : String),
      ((defaults.map Prod.fst).Nodup →
        ∀ v : String, (n, v) ∈ defaults →
        pyDictMem (pyDictSet options "cmd[saveReturn]"
          (StrOrPath.str "Speichern und zurückkehren")) n = false →
        (n, FormValue.str v) ∈ add_question_payload options defaults)
      ∧ ((options.map Prod.fst).Nodup →
        ∀ u : StrOrPath,
        pyDictGet (pyDictSet options "cmd[saveReturn]"
          (StrOrPath.str "Speichern und zurückkehren")) n = some u →
        ∀ w, (n, w) ∈ add_question_payload options defaults →
          w = toFormValue u)) := by
  constructor
  · intro title description intro_text st et tries online extra_data n v
    constructor
    · intro h1 h2
      unfold configure_test_payload configure_test_build_form_data
      apply List.mem_append_left
      apply List.mem_append_right
      rw [List.mem_map]
      exact ⟨(n, v), List.mem_filter.mpr ⟨h1, by simp [h2]⟩, rfl⟩
    · intro hget w hw
      have hnd : ((configure_test_data title description intro_text st et tries
          online).map Prod.fst).Nodup := by
        rw [configure_test_data_keys]
        decide
      have hmem := pyDictMem_of_get _ _ _ hget
      unfold configure_test_payload configure_test_build_form_data at hw
      rcases List.mem_append.mp hw with hw | hw
      · rcases List.mem_append.mp hw with hw | hw
        · obtain ⟨p, hp, he⟩ := List.mem_map.mp hw
          simp only [Prod.mk.injEq] at he
          have hpmem : (n, p.2) ∈ configure_test_data title description intro_text
              st et tries online := by
            have : p = (n, p.2) := by
              rw [← he.1]
            exact this ▸ hp
          have := pyDictGet_unique _ _ _ hnd hget p.2 hpmem
          rw [← he.2, this]
        · obtain ⟨p, hp, he⟩ := List.mem_map.mp hw
          simp only [Prod.mk.injEq] at he
          have hfil := (List.mem_filter.mp hp).2
          rw [he.1] at hfil
          rw [hmem] at hfil
          simp at hfil
      · simp only [List.mem_singleton, Prod.mk.injEq] at hw
        exfalso
        rw [hw.1] at hmem
        rw [pyDictMem_eq_keys_any, configure_test_data_keys] at hmem
        simp at hmem
  · intro options defaults n
    constructor
    · intro hnd v hv hmem
      unfold add_question_payload
      rw [add_question_build_mem]
      refine ⟨.str v, ?_, rfl⟩
      unfold add_question_post_data
      exact add_defaults_fold_preserved defaults _ n v hnd hv hmem
    · intro hnd u hget w hw
      have hnd0 : ((pyDictSet options "cmd[saveReturn]"
          (StrOrPath.str "Speichern und zurückkehren")).map Prod.fst).Nodup :=
        pyDictSet_keys_nodup _ _ _ hnd
      unfold add_question_payload at hw
      rw [add_question_build_mem] at hw
      obtain ⟨u', hu', hwu⟩ := hw
      unfold add_question_post_data at hu'
      obtain ⟨ext, he, hp⟩ := add_defaults_fold_ext defaults
        (pyDictSet options "cmd[saveReturn]"
          (StrOrPath.str "Speichern und zurückkehren"))
      rw [he] at hu'
      rcases List.mem_append.mp hu' with h | h
      · have : u' = u := pyDictGet_unique _ _ _ hnd0 hget u' h
        rw [hwu, this]
      · exfalso
        have hfalse := hp _ h
        have hmem := pyDictMem_of_get _ _ _ hget
        have h2 : pyDictMem (pyDictSet options "cmd[saveReturn]"
            (StrOrPath.str "Speichern und zurückkehren")) n = false := by
          simpa using hfalse
        rw [h2] at hmem
        exact Bool.noConfusion hmem

/-- Witness for C1: a scraped `ilfilehash` survives into the `configure_test`
payload, a scraped `maxsize` default survives into the `add_question`
payload, and an explicitly set `title` keeps the caller's value in the
`configure_test` payload. -/
theorem c1_explicit_values_beat_scraped_extras_witness :
    ("ilfilehash", FormValue.str "h")
      ∈ configure_test_payload "T" "D" "I" none none 3 false
          [("ilfilehash", "h"), ("title", "X")]
    ∧ ("maxsize", FormValue.str "2097152")
      ∈ add_question_payload [("title", StrOrPath.str "Q")] [("maxsize", "2097152")]
    ∧ (∀ w, ("title", w) ∈ configure_test_payload "T" "D" "I" none none 3 false
          [("ilfilehash", "h"), ("title", "X")] → w = FormValue.str "T") := by
  refine ⟨?_, ?_, ?_⟩
  · exact (c1_explicit_values_beat_scraped_extras.1 "T" "D" "I" none none 3 false
      [("ilfilehash", "h"), ("title", "X")] "ilfilehash" "h").1 (by decide) (by decide)
  · exact (c1_explicit_values_beat_scraped_extras.2 [("title", StrOrPath.str "Q")]
      [("maxsize", "2097152")] "maxsize").1 (by decide) "2097152" (by decide) (by decide)
  · exact (c1_explicit_values_beat_scraped_extras.1 "T" "D" "I" none none 3 false
      [("ilfilehash", "h"), ("title", "X")] "title" "T").2 (by decide)

/-! ### C4 -/

/-- C4 counterexample: a question whose page design holds a text block with
the `heading1` characteristic does not survive the round trip, because
`PageDesignBlockText.serialize` drops the `characteristic` field and
`deserialize` restores the `standard` default. -/
theorem c4_roundtrip_counterexample :
    deserializeQuestion (serializeQuestion c4HeadingQuestion)
      ≠ .ok c4HeadingQuestion := by
  decide

/-- Serialized blocks whose text blocks are all `standard` deserialize to
themselves. -/
theorem blocks_roundtrip (blocks : List PageDesignBlock)
    (h : blocksAllStandardText blocks = true) :
    (blocks.map serializeBlock).mapM deserializeBlock = .ok blocks := by
  induction blocks with
  | nil => rfl
  | cons b bs ih =>
    simp only [blocksAllStandardText, List.all_cons, Bool.and_eq_true] at h
    have hb : deserializeBlock (serializeBlock b) = .ok b := by
      cases b with
      | text t c =>
        have hc : c = .standard := by simpa using h.1
        rw [hc]
        rfl
      | image p => rfl
      | code c l n => rfl
    have ihe := ih (by simpa [blocksAllStandardText] using h.2)
    simp only [List.map_cons, List.mapM_cons, hb, ihe]
    rfl

/-- Serialized string lists deserialize to themselves. -/
theorem strs_roundtrip (xs : List String) :
    (xs.map Yaml.s).mapM Yaml.asStr = .ok xs := by
  induction xs with
  | nil => rfl
  | cons x xs ih =>
    simp only [List.map_cons, List.mapM_cons, Yaml.asStr, ih]
    rfl

/-- Serialized single-choice answers deserialize to themselves. -/
theorem sc_answers_roundtrip (answers : List (String × Rat)) :
    (answers.map (fun a => Yaml.dict [("answer", .s a.1), ("points", .f a.2)])).mapM
      deserializeSCAnswer = .ok answers := by
  induction answers with
  | nil => rfl
  | cons a as ih =>
    have ha : deserializeSCAnswer (Yaml.dict [("answer", .s a.1), ("points", .f a.2)])
        = .ok a := by
      cases a
      rfl
    simp only [List.map_cons, List.mapM_cons, ha, ih]
    rfl

/-- Serialized multiple-choice answers deserialize to themselves. -/
theorem mc_answers_roundtrip (answers : List MCAnswer) :
    (answers.map (fun a => Yaml.dict [("answer", .s a.answer), ("points", .f a.points),
        ("points_unchecked", .f a.points_unchecked)])).mapM
      deserializeMCAnswer = .ok answers := by
  induction answers with
  | nil => rfl
  | cons a as ih =>
    have ha : deserializeMCAnswer (Yaml.dict [("answer", .s a.answer),
        ("points", .f a.points), ("points_unchecked", .f a.points_unchecked)])
        = .ok a := by
      cases a
      rfl
    simp only [List.map_cons, List.mapM_cons, ha, ih]
    rfl

/-- C4 (amended): `deserialize(serialize(q))` is field-for-field equal to `q`
for every question variant and any nested page-design blocks *whose text
blocks all carry the default `standard` characteristic*; the text block's
characteristic field is not serialized, so non-default characteristics are
the one exception to the round trip. -/
theorem c4_roundtrip_standard_blocks (q : TestQuestion)
    (h : blocksAllStandardText q.page_design = true) :
    deserializeQuestion (serializeQuestion q) = .ok q := by
  cases q with
  | freeFormText title author summary qh pd points =>
    have hpd' : List.mapM.loop deserializeBlock (List.map serializeBlock pd) []
        = Except.ok pd := by
      simpa [List.mapM] using
        blocks_roundtrip pd (by simpa [TestQuestion.page_design] using h)
    simp [serializeQuestion, serializeQuestionBase, deserializeQuestion, yamlGet,
      yamlGetOpt, pyDictGet, Yaml.asStr, Yaml.asFloat, Yaml.asArr, hpd',
      List.find?, Except.bind, bind, pure, Except.pure]
  | uploadFile title author summary qh pd points exts mb =>
    have hpd' : List.mapM.loop deserializeBlock (List.map serializeBlock pd) []
        = Except.ok pd := by
      simpa [List.mapM] using
        blocks_roundtrip pd (by simpa [TestQuestion.page_design] using h)
    have hex' : List.mapM.loop Yaml.asStr (List.map Yaml.s exts) []
        = Except.ok exts := by
      simpa [List.mapM] using strs_roundtrip exts
    simp [serializeQuestion, serializeQuestionBase, deserializeQuestion, yamlGet,
      yamlGetOpt, pyDictGet, Yaml.asStr, Yaml.asFloat, Yaml.asArr, Yaml.asInt,
      hpd', hex', List.find?, Except.bind, bind, pure, Except.pure]
  | singleChoice title author summary qh pd sh answers =>
    have hpd' : List.mapM.loop deserializeBlock (List.map serializeBlock pd) []
        = Except.ok pd := by
      simpa [List.mapM] using
        blocks_roundtrip pd (by simpa [TestQuestion.page_design] using h)
    have ha' : List.mapM.loop deserializeSCAnswer
        (List.map (fun a => Yaml.dict [("answer", .s a.1), ("points", .f a.2)])
          answers) []
        = Except.ok answers := by
      simpa [List.mapM] using sc_answers_roundtrip answers
    simp [serializeQuestion, serializeQuestionBase, deserializeQuestion, yamlGet,
      yamlGetOpt, pyDictGet, Yaml.asStr, Yaml.asFloat, Yaml.asArr, Yaml.asBool,
      hpd', ha', List.find?, Except.bind, bind, pure, Except.pure]
  | multipleChoice title author summary qh pd sh answers sl =>
    have hpd' : List.mapM.loop deserializeBlock (List.map serializeBlock pd) []
        = Except.ok pd := by
      simpa [List.mapM] using
        blocks_roundtrip pd (by simpa [TestQuestion.page_design] using h)
    have ha' : List.mapM.loop deserializeMCAnswer
        (List.map (fun a => Yaml.dict [("answer", .s a.answer),
          ("points", .f a.points), ("points_unchecked", .f a.points_unchecked)])
          answers) []
        = Except.ok answers := by
      simpa [List.mapM] using mc_answers_roundtrip answers
    cases sl with
    | none =>
      simp [serializeQuestion, serializeQuestionBase, deserializeQuestion, yamlGet,
        yamlGetOpt, pyDictGet, Yaml.asStr, Yaml.asFloat, Yaml.asArr, Yaml.asBool,
        hpd', ha', List.find?, Except.bind, bind, pure, Except.pure]
    | some n =>
      simp [serializeQuestion, serializeQuestionBase, deserializeQuestion, yamlGet,
        yamlGetOpt, pyDictGet, Yaml.asStr, Yaml.asFloat, Yaml.asArr, Yaml.asBool,
        hpd', ha', List.find?, Except.bind, bind, pure, Except.pure]

/-- Witness for the amended C4 at a concrete question carrying a text, an
image and a code block. -/
theorem c4_roundtrip_standard_blocks_witness :
    deserializeQuestion (serializeQuestion c4StandardQuestion)
      = .ok c4StandardQuestion :=
  c4_roundtrip_standard_blocks c4StandardQuestion (by decide)

/-! ### C6 -/

/-- C6 counterexample: against the tree `./foo/{hey,baz}/bar`, the pattern
`"foo/bar"` matches *zero* leaves, not two — after entering `foo`, its
children `hey` and `baz` are full-matched against `bar` and rejected, so the
walk never reaches the leaves. -/
theorem c6_glob_counterexample :
    ilias_glob_regex c6Tree "foo/bar" = [] := by
  rfl

/-- C6 (amended): `"foo/bar"` only matches a `bar` directly inside `foo`; an
intermediate-level pattern is needed for the claimed tree, and
`"foo/.*/bar"` matches exactly the two `bar` leaves of `./foo/{hey,baz}/bar`
with their sanitized relative paths.  Per-level matching is full-string
(`"foolish"`/`"xfoo"` do not match segment `"foo"`), and path segments are
sanitized of literal slashes and backslashes. -/
theorem c6_glob_resolver_behavior :
    ilias_glob_regex c6Tree "foo/.*/bar"
      = [(["foo", "hey", "bar"], .mk "bar" "u3" []),
         (["foo", "baz", "bar"], .mk "bar" "u5" [])]
    ∧ filter_with_regex "foo" "foo" = true
    ∧ filter_with_regex "foolish" "foo" = false
    ∧ filter_with_regex "xfoo" "foo" = false
    ∧ _sanitize_path_name " we/ird\\name " = "we-ird-name" := by
  refine ⟨?_, ?_, ?_, ?_, ?_⟩ <;> rfl

/-! ### C7 -/

/-- A successful `validateStudentResult` passes the parsed points through
unclamped and only when they do not exceed the maximum. -/
theorem validate_ok_spec (question_id question_title : String)
    (raw : RawStudentResult) (mail : String) (g : ManualGradingGradedQuestion)
    (h : validateStudentResult question_id question_title raw = .ok (mail, g)) :
    g.points ≤ g.question.max_points
    ∧ pyFloat raw.points_str = .ok g.points
    ∧ pyFloat raw.max_points_str = .ok g.question.max_points
    ∧ mail = raw.student_mail := by
  unfold validateStudentResult at h
  cases hm : pyFloat raw.max_points_str with
  | error e => simp [hm, Except.bind, bind] at h
  | ok mx =>
    cases hp : pyFloat raw.points_str with
    | error e => simp [hm, hp, Except.bind, bind] at h
    | ok pts =>
      simp only [hm, hp, Except.bind, bind] at h
      split at h
      · simp [throw, throwThe, MonadExceptOf.throw] at h
      · rename_i hcond
        simp only [pure, Except.pure, Except.ok.injEq, Prod.mk.injEq] at h
        obtain ⟨hmail, hg⟩ := h
        subst hg
        refine ⟨?_, by simp [hp], by simp [hm], hmail.symm⟩
        simpa using not_lt.mp (by simpa using hcond)

/-- Points strictly above the maximum make `validateStudentResult` fail with
an error naming the question title and the participant mail. -/
theorem validate_err_spec (question_id question_title : String)
    (raw : RawStudentResult) (pts mx : Rat)
    (hp : pyFloat raw.points_str = .ok pts)
    (hm : pyFloat raw.max_points_str = .ok mx)
    (hgt : pts > mx) :
    validateStudentResult question_id question_title raw
      = .error ("Question " ++ question_title ++ " for " ++ raw.student_mail
          ++ " exceeds max points (" ++ toString pts ++ " > " ++ toString mx ++ ")") := by
  unfold validateStudentResult
  simp [hm, hp, Except.bind, bind, hgt, throw, throwThe, MonadExceptOf.throw]

/-- Lift `validate_ok_spec` through `_parse_student_question_result`. -/
theorem parse_student_ok_spec (reader : StringReader)
    (question_id question_title mail : String) (g : ManualGradingGradedQuestion)
    (rest : StringReader)
    (h : _parse_student_question_result reader question_id question_title
        = .ok ((mail, g), rest)) :
    g.points ≤ g.question.max_points
    ∧ ∃ raw, parseStudentRaw reader = .ok (raw, rest)
        ∧ pyFloat raw.points_str = .ok g.points
        ∧ pyFloat raw.max_points_str = .ok g.question.max_points
        ∧ mail = raw.student_mail := by
  unfold _parse_student_question_result at h
  cases hr : parseStudentRaw reader with
  | error e => simp [hr, Except.bind, bind] at h
  | ok pr =>
    obtain ⟨raw, rdr⟩ := pr
    simp only [hr, Except.bind, bind] at h
    cases hv : validateStudentResult question_id question_title raw with
    | error e => simp [hv] at h
    | ok sg =>
      simp only [hv, pure, Except.pure, Except.ok.injEq, Prod.mk.injEq] at h
      obtain ⟨hsg, hrest⟩ := h
      have hv2 : validateStudentResult question_id question_title raw
          = .ok (mail, g) := by
        rw [hv, hsg]
      obtain ⟨h1, h2, h3, h4⟩ := validate_ok_spec question_id question_title raw
        mail g hv2
      subst hrest
      exact ⟨h1, raw, rfl, h2, h3, h4⟩

/-- C7: a grading import whose awarded points exceed the question's maximum
fails during parsing with a fatal error naming the offending question and
participant; successfully parsed points are never clamped (they are exactly
the parsed float and are ≤ the maximum); and an import error aborts
`upload_grading_state` before any upload. -/
theorem c7_points_exceeding_max_fatal :
    (∀ (reader : StringReader) (question_id question_title mail : String)
        (g : ManualGradingGradedQuestion) (rest : StringReader),
      _parse_student_question_result reader question_id question_title
          = .ok ((mail, g), rest) →
      g.points ≤ g.question.max_points
      ∧ ∃ raw, parseStudentRaw reader = .ok (raw, rest)
          ∧ pyFloat raw.points_str = .ok g.points
          ∧ pyFloat raw.max_points_str = .ok g.question.max_points
          ∧ mail = raw.student_mail)
    ∧ (∀ (question_id question_title : String) (raw : RawStudentResult) (pts mx : Rat),
      pyFloat raw.points_str = .ok pts →
      pyFloat raw.max_points_str = .ok mx →
      pts > mx →
      validateStudentResult question_id question_title raw
        = .error ("Question " ++ question_title ++ " for " ++ raw.student_mail
            ++ " exceeds max points (" ++ toString pts ++ " > " ++ toString mx ++ ")"))
    ∧ _parse_manual_grading_question_file "q1" c7BadMd = .error c7BadMsg
    ∧ pyContains c7BadMsg "Question One" = true
    ∧ pyContains c7BadMsg "alice@example.com" = true
    ∧ (∀ emails : List String,
        upload_grading_state [("q1.md", c7BadMd)] emails = .error c7BadMsg) := by
  refine ⟨parse_student_ok_spec, validate_err_spec, ?_, ?_, ?_, ?_⟩
  · rfl
  · rfl
  · rfl
  · intro emails
    rfl

set_option maxRecDepth 40000 in
/-- Witness for C7 at the in-range export `c7GoodMd`: parsing succeeds and the
parsed 5 points do not exceed the maximum of 10. -/
theorem c7_points_exceeding_max_fatal_witness :
    c7GoodGraded.points ≤ c7GoodGraded.question.max_points := by
  have h := c7_points_exceeding_max_fatal.1 c7GoodReader "q1" "Question One"
    "alice@example.com" c7GoodGraded ⟨c7GoodMd.toList, 106⟩ (by decide)
  exact h.1

/-! ### C8 -/

set_option maxRecDepth 200000 in
/-- C8: importing a grading folder in which alice ends up with 3 answers and
bob with 2 (bob is missing from the third question file) raises the fatal
asymmetry error, with the differing counts in the message. -/
theorem c8_asymmetric_answer_counts_fatal :
    load_manual_grading_results_from_md c8Files
      = .error "Participants have different number of answers: [3, 2]" := by
  rfl

/-! ### C9 -/

/-- C9 counterexample: a multi-cell row lacking an `order[` column is *not*
skipped — it aborts the listing with the order-column error (which is the
error that carries the page's alert text) — and the missing-table error does
not include the on-page alert text (`"Boom"`) at all. -/
theorem c9_counterexample :
    _get_test_question_ids_and_links c9BadRowPage
      = .error "Could not find order column. Page-Alerts: Alert text"
    ∧ _get_test_question_ids_and_links c9NoTablePage
      = .error "Did not find questions table"
    ∧ pyContains "Did not find questions table" "Boom" = false := by
  refine ⟨?_, ?_, ?_⟩ <;> rfl

/-- A failing `questionRowStep` always fails with the order-column message
carrying the page's alert texts. -/
theorem questionRowStep_error (page : QuestionListingPage)
    (acc : List (String × Option LinkTag)) (row : QuestionRow) (e : String)
    (h : questionRowStep page acc row = .error e) :
    e = "Could not find order column. Page-Alerts: "
      ++ String.join (page.alerts.map pyTrim) := by
  unfold questionRowStep at h
  split at h
  · simp at h
  · split at h
    · simp only [Except.error.injEq] at h
      exact h.symm
    · simp at h

/-- A fold over rows containing a multi-cell row without an `order[` column
ends in the order-column error. -/
theorem questionRows_fold_error (page : QuestionListingPage)
    (rows : List QuestionRow) (acc : List (String × Option LinkTag))
    (h : ∃ r ∈ rows, r.tds.length ≠ 1 ∧ orderTd r = none) :
    rows.foldlM (questionRowStep page) acc
      = .error ("Could not find order column. Page-Alerts: "
          ++ String.join (page.alerts.map pyTrim)) := by
  induction rows generalizing acc with
  | nil => simp at h
  | cons r rows ih =>
    rw [List.foldlM_cons]
    obtain ⟨b, hb, hlen, hord⟩ := h
    cases hstep : questionRowStep page acc r with
    | error e =>
      rw [questionRowStep_error page acc r e hstep]
      rfl
    | ok acc2 =>
      have hnotr : ¬(r.tds.length ≠ 1 ∧ orderTd r = none) := by
        intro ⟨h1, h2⟩
        unfold questionRowStep at hstep
        rw [if_neg h1, h2] at hstep
        simp at hstep
      rcases List.mem_cons.mp hb with hbr | hbr
      · exact absurd (hbr ▸ ⟨hlen, hord⟩) hnotr
      · simpa [hstep] using ih acc2 ⟨b, hbr, hlen, hord⟩

/-- C9 (amended): on a question listing page, a row with a single `td` cell
is the "no data" placeholder and is skipped (the accumulated listing is
unchanged); a *multi-cell* row lacking an `order[` column is a hard error
whose message includes the visible on-page alert text; and absence of the
questions table altogether is a hard error whose fixed message does not
carry the alert text. -/
theorem c9_placeholder_rows_and_errors :
    (∀ (page : QuestionListingPage) (acc : List (String × Option LinkTag))
        (row : QuestionRow),
      row.tds.length = 1 → questionRowStep page acc row = .ok acc)
    ∧ (∀ (url : String) (alerts : List String) (rows : List QuestionRow),
      pyContains (pyToLower url) "cmd=questions" = true →
      pyContains (pyToLower url) "ilobjtestgui" = true →
      (∃ r ∈ rows, r.tds.length ≠ 1 ∧ orderTd r = none) →
      _get_test_question_ids_and_links ⟨url, some rows, alerts⟩
        = .error ("Could not find order column. Page-Alerts: "
            ++ String.join (alerts.map pyTrim)))
    ∧ (∀ (url : String) (alerts : List String),
      pyContains (pyToLower url) "cmd=questions" = true →
      pyContains (pyToLower url) "ilobjtestgui" = true →
      _get_test_question_ids_and_links ⟨url, none, alerts⟩
        = .error "Did not find questions table") := by
  refine ⟨?_, ?_, ?_⟩
  · intro page acc row h
    unfold questionRowStep
    rw [if_pos h]
  · intro url alerts rows h1 h2 h3
    unfold _get_test_question_ids_and_links
    simp only [h1, h2, and_self, not_true_eq_false, if_false, Bool.false_eq_true]
    exact questionRows_fold_error ⟨url, some rows, alerts⟩ rows [] h3
  · intro url alerts h1 h2
    unfold _get_test_question_ids_and_links
    simp [h1, h2, throw, throwThe, MonadExceptOf.throw]

/-- Witness for the amended C9 at concrete pages: the placeholder row of a
listing with one "no data" row and one real row is skipped (only the real
row is listed), the bad-row page fails with the alert-carrying message, and
the table-less page fails with the fixed message. -/
theorem c9_placeholder_rows_and_errors_witness :
    questionRowStep c9NoTablePage [] ⟨[⟨none⟩], []⟩ = .ok []
    ∧ _get_test_question_ids_and_links c9BadRowPage
      = .error "Could not find order column. Page-Alerts: Alert text"
    ∧ _get_test_question_ids_and_links
        ⟨"https://h/ilias.php?cmd=questions&cmdClass=ilObjTestGUI", none, ["Boom"]⟩
      = .error "Did not find questions table" := by
  refine ⟨?_, ?_, ?_⟩
  · exact c9_placeholder_rows_and_errors.1 c9NoTablePage [] ⟨[⟨none⟩], []⟩ (by decide)
  · have h := c9_placeholder_rows_and_errors.2.1
      "https://h/ilias.php?cmd=questions&cmdClass=ilObjTestGUI" ["  Alert text "]
      [⟨[⟨none⟩, ⟨some "foo"⟩], []⟩] (by decide) (by decide)
      ⟨⟨[⟨none⟩, ⟨some "foo"⟩], []⟩, by decide, by decide, by decide⟩
    exact h
  · exact c9_placeholder_rows_and_errors.2.2
      "https://h/ilias.php?cmd=questions&cmdClass=ilObjTestGUI" ["Boom"]
      (by decide) (by decide)

end IliasTests
